import Mathlib

/-!
# Cockroach Race: a shallow embedding of `src/main.cpp`

The C++ classes `Sprite`, `Cockroach`, `Player` and `Game` are rendered as Lean
structures, their member functions as pure functions on those structures.

Modelling conventions

* `std::string` is a `List Char` (one `Char` per C++ `char`); `std::vector<T>` is a `List T`.
* A C++ `int` is an `Int`; every `+`/`-` that the program performs on a data field
  (`x += speed`, `--stopTime`, `++currentInput`) is wrapped to 32 bits by `wrapInt`.
  Signed overflow is undefined behaviour in C++; the wrap is what mainstream targets do.
* `vector::operator[]` with an index outside `[0, size)` is undefined behaviour; the
  functions that perform such an access return `Option`, with `none` for that case.
* `rand()` is a stream `Env.rand : Nat → Nat` of the (non-negative) values the C library
  returns after `srand`, with the number of calls made so far kept in `Game.randCalls`.
* SDL is an environment `Env`: what `SDL_LoadBMP` and `SDL_CreateTextureFromSurface`
  return, and whether `SDL_Init`, `SDL_CreateWindow`, `SDL_CreateRenderer` succeed.
  Rendering is the list of draw calls issued. The `window`/`renderer` pointers themselves
  are not represented, nor are object lifetimes (the copies made by `push_back`, the
  `Sprite` destructor).
-/

namespace CockroachRace

/-- A `std::string`. -/
abbrev CppString := List Char

/-- Smallest value of a 32-bit `int`. -/
def INT_MIN : Int := -2147483648

/-- Largest value of a 32-bit `int`. -/
def INT_MAX : Int := 2147483647

/-- Two's complement reduction of a mathematical integer to a 32-bit `int`. -/
def wrapInt (v : Int) : Int := (v + 2147483648) % 4294967296 - 2147483648

/-- An `SDL_Rect`. -/
structure Rect where
  x : Int
  y : Int
  w : Int
  h : Int
deriving DecidableEq, Repr

/-- The fields of an `SDL_Surface` the program reads. -/
structure Surface where
  w : Int
  h : Int
deriving DecidableEq, Repr

/-- The world outside the program: the C random source and the SDL calls. -/
structure Env where
  /-- The value returned by the `k`-th call of `rand()` (counting from 0). -/
  rand : Nat → Nat
  /-- Result of `SDL_LoadBMP` on a file of the resources directory (`none`: null). -/
  loadBMP : CppString → Option Surface
  /-- Result of `SDL_CreateTextureFromSurface` as a texture handle (`none`: null). -/
  createTexture : Surface → Option Nat
  /-- Whether `SDL_Init(SDL_INIT_VIDEO)` returns a non-negative value. -/
  sdlInitOk : Bool
  /-- Whether `SDL_CreateWindow` returns a non-null window. -/
  windowOk : Bool
  /-- Whether `SDL_CreateRenderer` returns a non-null renderer. -/
  rendererOk : Bool

/-! ## class Sprite -/

/-- The data members of `Sprite`; `texture = none` is the null pointer. -/
structure Sprite where
  texture : Option Nat
  width : Int
  height : Int
  nframes : Int
deriving DecidableEq, Repr

/-- The constructor `Sprite::Sprite(renderer, filename, width)`. The member initialisers
give `texture = nullptr`, `height = 0`, `nframes = 0`; C++ `%` and `/` truncate. -/
def Sprite.new (env : Env) (filename : CppString) (width : Int) : Sprite :=
  match env.loadBMP filename with
  | none => { texture := none, width := width, height := 0, nframes := 0 }
  | some surface =>
    if Int.tmod surface.w width = 0 ∧ Int.tdiv surface.w width ≠ 0 then
      { texture := env.createTexture surface
        width := width
        height := surface.h
        nframes := Int.tdiv surface.w width }
    else
      { texture := none, width := width, height := 0, nframes := 0 }

/-- The member `Sprite::rect(idx)`. -/
def Sprite.rect (s : Sprite) (idx : Int) : Rect :=
  { x := idx * s.width, y := 0, w := s.width, h := s.height }

/-! ## class Cockroach -/

/-- The data members of `Cockroach` (the renderer pointer apart). -/
structure Cockroach where
  name : CppString
  lane : Int
  x : Int
  y : Int
  speed : Int
  rect : Rect
  sprite : Sprite
  stopped : Bool
  stopTime : Int
deriving DecidableEq, Repr

/-- The constructor `Cockroach::Cockroach(name, lane, renderer)`; `r` is the value that
its call of `rand()` returns. -/
def Cockroach.new (env : Env) (name : CppString) (lane : Int) (r : Nat) : Cockroach :=
  let sprite := Sprite.new env "cockroach.bmp".toList 50
  let y := 50 + lane * 100
  { name := name
    lane := lane
    x := 0
    y := y
    speed := (r : Int) % 5 + 1
    rect := { x := 0, y := y, w := sprite.width, h := sprite.height }
    sprite := sprite
    stopped := false
    stopTime := 0 }

/-- The member `Cockroach::update()`. -/
def Cockroach.update (c : Cockroach) : Cockroach :=
  if !c.stopped then
    let x := wrapInt (c.x + c.speed)
    { c with x := x, rect := { c.rect with x := x } }
  else c

/-- One `SDL_RenderCopy(renderer, texture, &src, &dst)` call. -/
structure DrawCall where
  texture : Nat
  src : Rect
  dst : Rect
deriving DecidableEq, Repr

/-- The member `Cockroach::render()`, as the draw calls it issues. -/
def Cockroach.render (c : Cockroach) : List DrawCall :=
  match c.sprite.texture with
  | some t => [{ texture := t, src := c.sprite.rect 0, dst := c.rect }]
  | none => []

/-- The member `Cockroach::hasFinished()`. -/
def Cockroach.hasFinished (c : Cockroach) : Bool := decide (c.x ≥ 750)

/-- The member `Cockroach::getName()`. -/
def Cockroach.getName (c : Cockroach) : CppString := c.name

/-- The member `Cockroach::isStopped()`. -/
def Cockroach.isStopped (c : Cockroach) : Bool := c.stopped

/-- The member `Cockroach::getStopTime()`. -/
def Cockroach.getStopTime (c : Cockroach) : Int := c.stopTime

/-- The member `Cockroach::decrementStopTime()`. -/
def Cockroach.decrementStopTime (c : Cockroach) : Cockroach :=
  { c with stopTime := wrapInt (c.stopTime - 1) }

/-- The member `Cockroach::stop(duration)`. -/
def Cockroach.stop (c : Cockroach) (duration : Int) : Cockroach :=
  { c with stopped := true, stopTime := duration }

/-- The member `Cockroach::resume()`. -/
def Cockroach.resume (c : Cockroach) : Cockroach :=
  { c with stopped := false, stopTime := 0 }

/-- The body of the first loop of `Game::update`, for one racer. -/
def tickRacer (c : Cockroach) : Cockroach :=
  let c1 := if !c.isStopped then c.update else c.decrementStopTime
  if c1.isStopped && decide (c1.getStopTime ≤ 0) then c1.resume else c1

/-- What can happen to one racer: a tick of the race loop, or a call of `stop`. -/
inductive RacerOp where
  | tick
  | stop (duration : Int)
deriving DecidableEq, Repr

/-- Effect of one operation on a racer. -/
def RacerOp.apply (op : RacerOp) (c : Cockroach) : Cockroach :=
  match op with
  | .tick => tickRacer c
  | .stop d => c.stop d

/-- Effect of a sequence of operations, first to last. -/
def runOps (ops : List RacerOp) (c : Cockroach) : Cockroach :=
  ops.foldl (fun acc op => op.apply acc) c

/-- A number of consecutive ticks of one racer. -/
def tickN : Nat → Cockroach → Cockroach
  | 0, c => c
  | n + 1, c => tickN n (tickRacer c)

/-! ## class Player -/

/-- The data members of `Player`. -/
structure Player where
  name : CppString
  cockroachIndex : Int
deriving DecidableEq, Repr

/-! ## class Game -/

/-- The data members of `Game` (the window and renderer pointers apart), with the number
of `rand()` calls made since `srand`. -/
structure Game where
  running : Bool
  gameStarted : Bool
  numPlayers : Int
  players : List Player
  cockroaches : List Cockroach
  currentInput : Int
  playerInputs : List CppString
  randCalls : Nat
deriving DecidableEq, Repr

/-- The constructor `Game::Game()`. -/
def Game.new : Game :=
  { running := false
    gameStarted := false
    numPlayers := 0
    players := []
    cockroaches := []
    currentInput := 0
    playerInputs := []
    randCalls := 0 }

/-- The statement `cockroaches.push_back(Cockroach(name, lane, renderer))`: the constructor
draws the next value of `rand()`. -/
def Game.pushCockroach (env : Env) (name : CppString) (lane : Int) (g : Game) : Game :=
  { g with
    cockroaches := g.cockroaches ++ [Cockroach.new env name lane (env.rand g.randCalls)]
    randCalls := g.randCalls + 1 }

/-- The member `Game::init()`: its return value and the state it leaves. `srand` restarts
the stream of `rand()` values. -/
def Game.init (env : Env) (g : Game) : Bool × Game :=
  if !env.sdlInitOk then (false, g)
  else if !env.windowOk then (false, g)
  else if !env.rendererOk then (false, g)
  else
    let g := { g with randCalls := 0 }
    let g := g.pushCockroach env "Cockroach 1".toList 0
    let g := g.pushCockroach env "Cockroach 2".toList 1
    let g := g.pushCockroach env "Cockroach 3".toList 2
    let g := g.pushCockroach env "Cockroach 4".toList 3
    let g := g.pushCockroach env "Cockroach 5".toList 4
    (true, { g with running := true })

/-- The member `Game::resetRace()`. -/
def Game.resetRace (env : Env) (g : Game) : Game :=
  let g := { g with cockroaches := [] }
  let g := g.pushCockroach env "Cockroach 1".toList 0
  let g := g.pushCockroach env "Cockroach 2".toList 1
  let g := g.pushCockroach env "Cockroach 3".toList 2
  let g := g.pushCockroach env "Cockroach 4".toList 3
  let g := g.pushCockroach env "Cockroach 5".toList 4
  g

/-- The second loop of `Game::update` from the racer it has reached: the game it leaves and
the name it prints before " wins!", if any. -/
def Game.winnerScan (env : Env) (g : Game) : List Cockroach → Game × Option CppString
  | [] => (g, none)
  | c :: rest =>
    if c.hasFinished then (g.resetRace env, some c.getName)
    else Game.winnerScan env g rest

/-- The member `Game::update()`: one tick of the race. -/
def Game.update (env : Env) (g : Game) : Game × Option CppString :=
  let g1 := { g with cockroaches := g.cockroaches.map tickRacer }
  Game.winnerScan env g1 g1.cockroaches

/-- The game after a number of consecutive calls of `Game::update`. -/
def Game.updateN (env : Env) : Nat → Game → Game
  | 0, g => g
  | n + 1, g => Game.updateN env n (g.update env).1

/-- The member `Game::render()`, as the draw calls of the racers. -/
def Game.render (g : Game) : List DrawCall :=
  g.cockroaches.foldr (fun c acc => c.render ++ acc) []

/-! ### The setup screen -/

/-- The key codes `Game::handleTextInput` distinguishes. -/
inductive Key where
  | SDLK_BACKSPACE
  | SDLK_RETURN
  | other
deriving DecidableEq, Repr

/-- An `SDL_Event`, by its type. A mouse event carries the pointer position that
`SDL_GetMouseState` reports while it is handled, a text event its text. -/
inductive Event where
  | SDL_QUIT
  | SDL_MOUSEBUTTONDOWN (x y : Int)
  | SDL_TEXTINPUT (text : CppString)
  | SDL_KEYDOWN (sym : Key)
  | other
deriving DecidableEq, Repr

/-- The access `v[i]` of a `std::vector` with an `int` index; `none` outside `[0, size)`. -/
def vecGet? {α : Type} (v : List α) (i : Int) : Option α :=
  if 0 ≤ i ∧ i < (v.length : Int) then v[i.toNat]? else none

/-- The assignment `v[i] = a`, for an index inside `[0, size)`. -/
def vecSet {α : Type} (v : List α) (i : Int) (a : α) : List α :=
  v.set i.toNat a

/-- The call `v.resize(n)` of a `std::vector<std::string>`: the first `n` elements stay,
missing ones are value-initialised (empty strings). -/
def vecResize (v : List CppString) (n : Int) : List CppString :=
  v.take n.toNat ++ List.replicate (n.toNat - v.length) []

/-- The loop of `Game::validatePlayerInputs` with `todo` iterations left, at index `i`:
the return value and the `players` vector it leaves. -/
def validateLoop (inputs : List CppString) : Nat → Int → List Player → Option (Bool × List Player)
  | 0, _, players => some (true, players)
  | todo + 1, i, players =>
    match vecGet? inputs i with
    | none => none
    | some s =>
      if s.isEmpty then some (false, players)
      else validateLoop inputs todo (i + 1) (players ++ [{ name := s, cockroachIndex := i }])

/-- The member `Game::validatePlayerInputs()`. -/
def Game.validatePlayerInputs (g : Game) : Option (Bool × Game) :=
  match validateLoop g.playerInputs g.numPlayers.toNat 0 g.players with
  | none => none
  | some (ok, players) => some (ok, { g with players := players })

/-- The body of the loop over the five numbered buttons in `Game::handleStartScreenEvents`. -/
def Game.numberButton (x y : Int) (g : Game) (i : Int) : Game :=
  if x ≥ 50 ∧ x ≤ 250 ∧ y ≥ 50 + i * 60 ∧ y ≤ 100 + i * 60 then
    { g with
      numPlayers := i + 1
      playerInputs := vecResize g.playerInputs (i + 1)
      currentInput := 0 }
  else g

/-- The `SDL_MOUSEBUTTONDOWN` branch of `Game::handleStartScreenEvents`. -/
def Game.handleMouseButtonDown (g : Game) (x y : Int) : Option Game :=
  let afterStart : Option Game :=
    if x ≥ 350 ∧ x ≤ 450 ∧ y ≥ 500 ∧ y ≤ 550 then
      if g.numPlayers > 0 then
        match g.validatePlayerInputs with
        | none => none
        | some (ok, g1) => some (if ok then { g1 with gameStarted := true } else g1)
      else some g
    else some g
  match afterStart with
  | none => none
  | some g1 => some ([0, 1, 2, 3, 4].foldl (Game.numberButton x y) g1)

/-- The member `Game::handleTextInput(e)`. -/
def Game.handleTextInput (g : Game) (e : Event) : Option Game :=
  match e with
  | .SDL_TEXTINPUT text =>
    match vecGet? g.playerInputs g.currentInput with
    | none => none
    | some s => some { g with playerInputs := vecSet g.playerInputs g.currentInput (s ++ text) }
  | .SDL_KEYDOWN .SDLK_BACKSPACE =>
    match vecGet? g.playerInputs g.currentInput with
    | none => none
    | some s =>
      if !s.isEmpty then
        some { g with playerInputs := vecSet g.playerInputs g.currentInput s.dropLast }
      else some g
  | .SDL_KEYDOWN .SDLK_RETURN =>
    let next := wrapInt (g.currentInput + 1)
    some { g with currentInput := if next ≥ g.numPlayers then 0 else next }
  | _ => some g

/-- The body of the event loop of `Game::handleStartScreenEvents`, for one event. -/
def Game.handleStartScreenEvent (g : Game) (e : Event) : Option Game :=
  match e with
  | .SDL_QUIT => some { g with running := false }
  | .SDL_MOUSEBUTTONDOWN x y => g.handleMouseButtonDown x y
  | .SDL_TEXTINPUT text => g.handleTextInput (.SDL_TEXTINPUT text)
  | .SDL_KEYDOWN sym => g.handleTextInput (.SDL_KEYDOWN sym)
  | .other => some g

/-- The member `Game::handleStartScreenEvents()` on the events it polls, in order. -/
def Game.handleStartScreenEvents : Game → List Event → Option Game
  | g, [] => some g
  | g, e :: es =>
    match g.handleStartScreenEvent e with
    | none => none
    | some g1 => Game.handleStartScreenEvents g1 es

/-- The draft state of the setup screen: player count, draft names, focus index. -/
def Game.draft (g : Game) : Int × List CppString × Int :=
  (g.numPlayers, g.playerInputs, g.currentInput)

/-- The invariant of the setup screen: one draft per declared slot, a focus index inside
the declared slots (0 while no slot is declared), at most five slots. -/
def Game.SetupInv (g : Game) : Prop :=
  (g.playerInputs.length : Int) = g.numPlayers ∧ 0 ≤ g.currentInput ∧
    (0 < g.numPlayers → g.currentInput < g.numPlayers) ∧
    (g.numPlayers = 0 → g.currentInput = 0) ∧ g.numPlayers ≤ 5

/-- The names printed by a number of consecutive calls of `Game::update`, one entry per
call, `none` for a call that prints nothing. -/
def Game.announcements (env : Env) : Nat → Game → List (Option CppString)
  | 0, _ => []
  | n + 1, g => (g.update env).2 :: Game.announcements env n (g.update env).1

/-- The number of ticks a racer of speed `m` needs to reach position 750: 750 / m rounded up. -/
def raceLength (m : Int) : Nat := ((750 + m - 1) / m).toNat

/-! ## Sample data -/

/-- An environment in which SDL succeeds, the strip is 100x40 and `rand()` returns
3, 4, 7, 12, 19, ... (speeds 4, 5, 3, 3, 5 for the first race). -/
def sampleEnv : Env :=
  { rand := fun k => k * k + 3
    loadBMP := fun _ => some { w := 100, h := 40 }
    createTexture := fun _ => some 7
    sdlInitOk := true
    windowOk := true
    rendererOk := true }

/-- The game after a successful `init` in the sample environment, as `run` finds it. -/
def sampleStart : Game := (Game.new.init sampleEnv).2

/-- The setup screen after choosing three players, pressing return and typing "Al". -/
def sampleSetup : Game :=
  { sampleStart with
    numPlayers := 3
    playerInputs := [[], "Al".toList, []]
    currentInput := 1 }

/-- A racer of speed 3 at the start line. -/
def sampleRacer : Cockroach := Cockroach.new sampleEnv "Cockroach 1".toList 0 2

/-- A racer of the given name, position and speed, not stopped. -/
def racerAt (name : String) (lane x speed : Int) : Cockroach :=
  { name := name.toList
    lane := lane
    x := x
    y := 50 + lane * 100
    speed := speed
    rect := { x := x, y := 50 + lane * 100, w := 50, h := 40 }
    sprite := Sprite.new sampleEnv "cockroach.bmp".toList 50
    stopped := false
    stopTime := 0 }

/-- A race one tick before B reaches 750 and C reaches 754, A being behind. -/
def photoFinish : Game :=
  { Game.new with
    running := true
    gameStarted := true
    cockroaches := [racerAt "A" 0 697 3, racerAt "B" 1 747 3, racerAt "C" 2 749 5]
    randCalls := 5 }

/-- A click inside the numbered button `i`. -/
def clickNumber (i : Int) : Event := .SDL_MOUSEBUTTONDOWN 100 (60 + i * 60)

/-- A click inside the start button. -/
def clickStart : Event := .SDL_MOUSEBUTTONDOWN 400 520

/-- Typing a text into the focused slot. -/
def typeText (s : String) : Event := .SDL_TEXTINPUT s.toList

/-- Pressing the return key. -/
def pressReturn : Event := .SDL_KEYDOWN .SDLK_RETURN

/-! ## Machine integers -/

theorem wrapInt_of_inRange (v : Int) (hlo : INT_MIN ≤ v) (hhi : v ≤ INT_MAX) :
    wrapInt v = v := by
  unfold INT_MIN at hlo
  unfold INT_MAX at hhi
  unfold wrapInt
  omega

/-! ## One racer -/

theorem tickRacer_running (c : Cockroach) (hrun : c.stopped = false)
    (hlo : INT_MIN ≤ c.x + c.speed) (hhi : c.x + c.speed ≤ INT_MAX) :
    tickRacer c =
      { c with x := c.x + c.speed, rect := { c.rect with x := c.x + c.speed } } := by
  simp [tickRacer, Cockroach.isStopped, Cockroach.update, hrun,
    wrapInt_of_inRange _ hlo hhi]

theorem tickRacer_waiting (c : Cockroach) (hstop : c.stopped = true)
    (h1 : 1 < c.stopTime) (hmax : c.stopTime ≤ INT_MAX) :
    tickRacer c = { c with stopTime := c.stopTime - 1 } := by
  have hw : wrapInt (c.stopTime - 1) = c.stopTime - 1 :=
    wrapInt_of_inRange _ (by unfold INT_MIN; omega) (by omega)
  have hpos : ¬ c.stopTime ≤ 1 := by omega
  simp [tickRacer, Cockroach.isStopped, Cockroach.decrementStopTime, Cockroach.getStopTime,
    hstop, hw, hpos]

theorem tickRacer_resuming (c : Cockroach) (hstop : c.stopped = true)
    (h1 : c.stopTime = 1) :
    tickRacer c = { c with stopped := false, stopTime := 0 } := by
  have hw : wrapInt (c.stopTime - 1) = 0 := by rw [h1]; decide
  simp [tickRacer, Cockroach.isStopped, Cockroach.decrementStopTime, Cockroach.getStopTime,
    Cockroach.resume, hstop, hw]

theorem tickRacer_speed (c : Cockroach) : (tickRacer c).speed = c.speed := by
  unfold tickRacer Cockroach.isStopped Cockroach.update Cockroach.decrementStopTime
    Cockroach.getStopTime Cockroach.resume
  cases c.stopped <;> simp
  split <;> rfl

theorem tickRacer_x_of_stopped (c : Cockroach) (hstop : c.stopped = true) :
    (tickRacer c).x = c.x := by
  unfold tickRacer Cockroach.isStopped Cockroach.update Cockroach.decrementStopTime
    Cockroach.getStopTime Cockroach.resume
  simp [hstop]
  split <;> rfl

theorem tickN_succ_last (n : Nat) (c : Cockroach) :
    tickN (n + 1) c = tickRacer (tickN n c) := by
  induction n generalizing c with
  | zero => rfl
  | succ n ih =>
    show tickN (n + 1) (tickRacer c) = tickRacer (tickN (n + 1) c)
    rw [ih (tickRacer c)]
    rfl

theorem tickN_after_stop (c : Cockroach) (d : Int) (hdmax : d ≤ INT_MAX) :
    ∀ k : Nat, (k : Int) < d →
      tickN k (c.stop d) = { c with stopped := true, stopTime := d - k } := by
  intro k
  induction k with
  | zero => intro _; simp [tickN, Cockroach.stop]
  | succ k ih =>
    intro hk
    have hk1 : (k : Int) < d := by push_cast at hk; omega
    rw [tickN_succ_last, ih hk1]
    rw [tickRacer_waiting _ rfl (by show 1 < d - (k : Int); push_cast at hk; omega)
      (by show d - (k : Int) ≤ INT_MAX; omega)]
    simp only [Cockroach.mk.injEq, true_and, and_true]
    push_cast
    omega

theorem tickN_stop_resumed (c : Cockroach) (d : Int) (hd : 0 < d) (hdmax : d ≤ INT_MAX) :
    tickN d.toNat (c.stop d) = { c with stopped := false, stopTime := 0 } := by
  obtain ⟨k, hk⟩ : ∃ k : Nat, d.toNat = k + 1 := ⟨d.toNat - 1, by omega⟩
  have hkd : (k : Int) + 1 = d := by omega
  rw [hk, tickN_succ_last, tickN_after_stop c d hdmax k (by omega)]
  rw [tickRacer_resuming _ rfl (by show d - (k : Int) = 1; omega)]

/-- C5: after `stop(d)` with `d > 0`, the racer's state after each of the first `d - 1`
tick steps has the position it had, is still stopped and has a remaining-stop counter one
lower than before; the `d`-th tick step clears the stopped flag with counter 0 and
position still unchanged; the `(d+1)`-th tick step adds the speed to the position. -/
theorem stop_duration_ticks (c : Cockroach) (d : Int) (hd : 0 < d) (hdmax : d ≤ INT_MAX)
    (hlo : INT_MIN ≤ c.x + c.speed) (hhi : c.x + c.speed ≤ INT_MAX) :
    (∀ k : Nat, (k : Int) < d →
      (tickN k (c.stop d)).x = c.x ∧ (tickN k (c.stop d)).stopped = true ∧
        (tickN k (c.stop d)).stopTime = d - k) ∧
    ((tickN d.toNat (c.stop d)).x = c.x ∧ (tickN d.toNat (c.stop d)).stopped = false ∧
      (tickN d.toNat (c.stop d)).stopTime = 0) ∧
    (tickN (d.toNat + 1) (c.stop d)).x = c.x + c.speed := by
  refine ⟨?_, ?_, ?_⟩
  · intro k hk
    rw [tickN_after_stop c d hdmax k hk]
    exact ⟨rfl, rfl, rfl⟩
  · rw [tickN_stop_resumed c d hd hdmax]
    exact ⟨rfl, rfl, rfl⟩
  · rw [tickN_succ_last, tickN_stop_resumed c d hd hdmax]
    rw [tickRacer_running { c with stopped := false, stopTime := 0 } rfl hlo hhi]

/-- C5 at a racer of speed 3 stopped for 2 ticks. -/
theorem stop_duration_ticks_witness :
    (∀ k : Nat, (k : Int) < 2 →
      (tickN k (sampleRacer.stop 2)).x = sampleRacer.x ∧
        (tickN k (sampleRacer.stop 2)).stopped = true ∧
        (tickN k (sampleRacer.stop 2)).stopTime = 2 - k) ∧
    ((tickN (2 : Int).toNat (sampleRacer.stop 2)).x = sampleRacer.x ∧
      (tickN (2 : Int).toNat (sampleRacer.stop 2)).stopped = false ∧
      (tickN (2 : Int).toNat (sampleRacer.stop 2)).stopTime = 0) ∧
    (tickN ((2 : Int).toNat + 1) (sampleRacer.stop 2)).x = sampleRacer.x + sampleRacer.speed :=
  stop_duration_ticks sampleRacer 2 (by decide) (by decide) (by decide) (by decide)

theorem apply_speed (op : RacerOp) (c : Cockroach) : (op.apply c).speed = c.speed := by
  cases op with
  | tick => exact tickRacer_speed c
  | stop d => rfl

theorem apply_x_bounds (op : RacerOp) (c : Cockroach) (hs : 0 ≤ c.speed)
    (hlo : INT_MIN ≤ c.x) (hhi : c.x + c.speed ≤ INT_MAX) :
    c.x ≤ (op.apply c).x ∧ (op.apply c).x ≤ c.x + c.speed := by
  cases op with
  | stop d => exact ⟨le_refl _, by show c.x ≤ c.x + c.speed; omega⟩
  | tick =>
    show c.x ≤ (tickRacer c).x ∧ (tickRacer c).x ≤ c.x + c.speed
    cases hst : c.stopped with
    | true => rw [tickRacer_x_of_stopped c hst]; omega
    | false =>
      rw [tickRacer_running c hst (by omega) hhi]
      show c.x ≤ c.x + c.speed ∧ c.x + c.speed ≤ c.x + c.speed
      omega

theorem runOps_bounds (ops : List RacerOp) :
    ∀ c : Cockroach, 0 ≤ c.speed → INT_MIN ≤ c.x → c.x + c.speed * ops.length ≤ INT_MAX →
      (runOps ops c).speed = c.speed ∧ c.x ≤ (runOps ops c).x ∧
        (runOps ops c).x ≤ c.x + c.speed * ops.length := by
  induction ops with
  | nil => intro c _ _ _; simp [runOps]
  | cons op rest ih =>
    intro c hs hlo hhi
    have hlen : c.speed * ((op :: rest).length : Int) = c.speed * (rest.length : Int) + c.speed := by
      simp only [List.length_cons]; push_cast; ring
    rw [hlen] at hhi ⊢
    have hnn : 0 ≤ c.speed * (rest.length : Int) := mul_nonneg hs (by positivity)
    have hb := apply_x_bounds op c hs hlo (by linarith)
    have hsp := apply_speed op c
    have h := ih (op.apply c) (by rw [hsp]; exact hs) (by linarith) (by rw [hsp]; linarith)
    rw [hsp] at h
    show (runOps rest (op.apply c)).speed = c.speed ∧ c.x ≤ (runOps rest (op.apply c)).x ∧
      (runOps rest (op.apply c)).x ≤ c.x + (c.speed * (rest.length : Int) + c.speed)
    refine ⟨h.1, by linarith [h.2.1], by linarith [h.2.2]⟩

theorem runOps_append (pre post : List RacerOp) (c : Cockroach) :
    runOps (pre ++ post) c = runOps post (runOps pre c) := by
  simp [runOps, List.foldl_append]

/-- C6: along every sequence of tick steps and `stop(d)` calls on a racer of non-negative
speed (positions staying inside the `int` range), every step keeps the speed, never
lowers the position, adds exactly the speed to the position when it is a tick step of a
racer that is not stopped, and leaves the position as it is when it is a tick step of a
stopped racer. -/
theorem position_monotone_speed_fixed (c : Cockroach) (ops : List RacerOp)
    (hs : 0 ≤ c.speed) (hlo : INT_MIN ≤ c.x) (hhi : c.x + c.speed * ops.length ≤ INT_MAX) :
    ∀ (pre post : List RacerOp) (op : RacerOp), ops = pre ++ op :: post →
      (op.apply (runOps pre c)).speed = c.speed ∧
      (runOps pre c).speed = c.speed ∧
      c.x ≤ (runOps pre c).x ∧
      (runOps pre c).x ≤ (op.apply (runOps pre c)).x ∧
      (op = RacerOp.tick → (runOps pre c).stopped = false →
        (op.apply (runOps pre c)).x = (runOps pre c).x + c.speed) ∧
      (op = RacerOp.tick → (runOps pre c).stopped = true →
        (op.apply (runOps pre c)).x = (runOps pre c).x) := by
  intro pre post op hops
  have hlen : (ops.length : Int) = (pre.length : Int) + 1 + (post.length : Int) := by
    rw [hops]; simp only [List.length_append, List.length_cons]; push_cast; ring
  have hnn1 : 0 ≤ c.speed * (pre.length : Int) := mul_nonneg hs (by positivity)
  have hnn2 : 0 ≤ c.speed * (post.length : Int) := mul_nonneg hs (by positivity)
  have hexp : c.speed * (ops.length : Int) =
      c.speed * (pre.length : Int) + c.speed + c.speed * (post.length : Int) := by
    rw [hlen]; ring
  have hpre := runOps_bounds pre c hs hlo (by linarith)
  obtain ⟨hsp, hx1, hx2⟩ := hpre
  have hb := apply_x_bounds op (runOps pre c) (by rw [hsp]; exact hs) (by linarith)
    (by rw [hsp]; linarith)
  refine ⟨by rw [apply_speed, hsp], hsp, hx1, hb.1, ?_, ?_⟩
  · intro htick hrun
    subst htick
    show (tickRacer (runOps pre c)).x = _
    rw [tickRacer_running _ hrun (by rw [hsp]; linarith) (by rw [hsp]; linarith), hsp]
  · intro htick hstop
    subst htick
    exact tickRacer_x_of_stopped _ hstop

/-- C6 at a racer of speed 3 that ticks, is stopped for one tick and ticks twice. -/
theorem position_monotone_speed_fixed_witness :
    (RacerOp.tick.apply (runOps [RacerOp.tick, RacerOp.stop 1] sampleRacer)).speed
        = sampleRacer.speed ∧
      (runOps [RacerOp.tick, RacerOp.stop 1] sampleRacer).speed = sampleRacer.speed ∧
      sampleRacer.x ≤ (runOps [RacerOp.tick, RacerOp.stop 1] sampleRacer).x ∧
      (runOps [RacerOp.tick, RacerOp.stop 1] sampleRacer).x
        ≤ (RacerOp.tick.apply (runOps [RacerOp.tick, RacerOp.stop 1] sampleRacer)).x ∧
      (RacerOp.tick = RacerOp.tick →
        (runOps [RacerOp.tick, RacerOp.stop 1] sampleRacer).stopped = false →
        (RacerOp.tick.apply (runOps [RacerOp.tick, RacerOp.stop 1] sampleRacer)).x
          = (runOps [RacerOp.tick, RacerOp.stop 1] sampleRacer).x + sampleRacer.speed) ∧
      (RacerOp.tick = RacerOp.tick →
        (runOps [RacerOp.tick, RacerOp.stop 1] sampleRacer).stopped = true →
        (RacerOp.tick.apply (runOps [RacerOp.tick, RacerOp.stop 1] sampleRacer)).x
          = (runOps [RacerOp.tick, RacerOp.stop 1] sampleRacer).x) :=
  position_monotone_speed_fixed sampleRacer
    [RacerOp.tick, RacerOp.stop 1, RacerOp.tick, RacerOp.tick]
    (by decide) (by decide) (by decide)
    [RacerOp.tick, RacerOp.stop 1] [RacerOp.tick] RacerOp.tick rfl

/-! ## Sprite loading -/

theorem render_nil_of_no_texture (c : Cockroach) (h : c.sprite.texture = none) :
    c.render = [] := by
  simp [Cockroach.render, h]

/-- C8: for an image that was read, of width `w ≥ 0`, and a frame width `fw > 0`: when `w`
is a positive multiple of `fw` the sprite gets the texture that was requested, height the
image height and `nframes = w / fw`, which is at least 1 and gives back `w` when multiplied
by `fw`; otherwise `nframes` is 0, there is no texture and `render` draws nothing; so
`nframes ≠ 0` exactly when `w` is a positive multiple of `fw`. -/
theorem sprite_valid_iff_positive_multiple (env : Env) (filename : CppString) (fw : Int)
    (surface : Surface) (hload : env.loadBMP filename = some surface)
    (hw : 0 ≤ surface.w) (hfw : 0 < fw) :
    ((0 < surface.w ∧ fw ∣ surface.w) →
      (Sprite.new env filename fw).texture = env.createTexture surface ∧
      (Sprite.new env filename fw).width = fw ∧
      (Sprite.new env filename fw).height = surface.h ∧
      (Sprite.new env filename fw).nframes = surface.w / fw ∧
      1 ≤ (Sprite.new env filename fw).nframes ∧
      (Sprite.new env filename fw).nframes * fw = surface.w) ∧
    (¬ (0 < surface.w ∧ fw ∣ surface.w) →
      (Sprite.new env filename fw).texture = none ∧
      (Sprite.new env filename fw).nframes = 0 ∧
      ∀ c : Cockroach, c.sprite = Sprite.new env filename fw → c.render = []) ∧
    ((Sprite.new env filename fw).nframes ≠ 0 ↔ (0 < surface.w ∧ fw ∣ surface.w)) := by
  have hmod : Int.tmod surface.w fw = surface.w % fw := Int.tmod_eq_emod hw (le_of_lt hfw)
  have hdiv : Int.tdiv surface.w fw = surface.w / fw := Int.tdiv_eq_ediv hw (le_of_lt hfw)
  have hcond : (Int.tmod surface.w fw = 0 ∧ Int.tdiv surface.w fw ≠ 0) ↔
      (0 < surface.w ∧ fw ∣ surface.w) := by
    rw [hmod, hdiv]
    constructor
    · rintro ⟨h0, hq⟩
      have hdvd : fw ∣ surface.w := Int.dvd_of_emod_eq_zero h0
      refine ⟨?_, hdvd⟩
      rcases lt_or_eq_of_le hw with h | h
      · exact h
      · exfalso; apply hq; rw [← h]; simp
    · rintro ⟨hpos, hdvd⟩
      refine ⟨Int.emod_eq_zero_of_dvd hdvd, ?_⟩
      obtain ⟨k, hk⟩ := hdvd
      rw [hk, Int.mul_ediv_cancel_left _ (ne_of_gt hfw)]
      rintro rfl
      simp at hk
      omega
  have hvalid : (0 < surface.w ∧ fw ∣ surface.w) →
      Sprite.new env filename fw =
        { texture := env.createTexture surface, width := fw, height := surface.h,
          nframes := Int.tdiv surface.w fw } := by
    intro h
    simp only [Sprite.new, hload]
    rw [if_pos (hcond.mpr h)]
  have hinvalid : ¬ (0 < surface.w ∧ fw ∣ surface.w) →
      Sprite.new env filename fw = { texture := none, width := fw, height := 0, nframes := 0 } := by
    intro h
    simp only [Sprite.new, hload]
    rw [if_neg (fun hc => h (hcond.mp hc))]
  have hq : (0 < surface.w ∧ fw ∣ surface.w) → 1 ≤ surface.w / fw ∧ surface.w / fw * fw = surface.w := by
    rintro ⟨hpos, hdvd⟩
    have hmul : surface.w / fw * fw = surface.w := Int.ediv_mul_cancel hdvd
    refine ⟨?_, hmul⟩
    by_contra hlt
    have hle : surface.w / fw ≤ 0 := by omega
    have : surface.w / fw * fw ≤ 0 := mul_nonpos_of_nonpos_of_nonneg hle (le_of_lt hfw)
    omega
  refine ⟨?_, ?_, ?_⟩
  · intro h
    rw [hvalid h]
    exact ⟨rfl, rfl, rfl, hdiv, by show 1 ≤ Int.tdiv surface.w fw; rw [hdiv]; exact (hq h).1,
      by show Int.tdiv surface.w fw * fw = surface.w; rw [hdiv]; exact (hq h).2⟩
  · intro h
    rw [hinvalid h]
    exact ⟨rfl, rfl, fun c hc => render_nil_of_no_texture c (by rw [hc])⟩
  · constructor
    · intro hne
      by_contra h
      rw [hinvalid h] at hne
      exact hne rfl
    · intro h
      rw [hvalid h]
      show Int.tdiv surface.w fw ≠ 0
      rw [hdiv]
      have := (hq h).1
      omega

/-- C8 at the 100x40 strip of the sample environment and frame width 50. -/
theorem sprite_valid_iff_positive_multiple_witness :
    (Sprite.new sampleEnv "cockroach.bmp".toList 50).nframes = 2 ∧
      (Sprite.new sampleEnv "cockroach.bmp".toList 50).height = 40 ∧
      (Sprite.new sampleEnv "cockroach.bmp".toList 50).texture = some 7 :=
  have h := (sprite_valid_iff_positive_multiple sampleEnv "cockroach.bmp".toList 50
    { w := 100, h := 40 } rfl (by decide) (by decide)).1 ⟨by decide, by decide⟩
  ⟨h.2.2.2.1, h.2.2.1, h.1⟩

/-! ## Winner detection and race reset -/

theorem hasFinished_iff (c : Cockroach) : c.hasFinished = true ↔ 750 ≤ c.x := by
  simp [Cockroach.hasFinished]

theorem hasFinished_false_iff (c : Cockroach) : c.hasFinished = false ↔ c.x < 750 := by
  simp [Cockroach.hasFinished]

theorem winnerScan_none (env : Env) (g : Game) (cs : List Cockroach)
    (h : ∀ c ∈ cs, c.x < 750) : Game.winnerScan env g cs = (g, none) := by
  induction cs with
  | nil => rfl
  | cons c rest ih =>
    have hc : c.hasFinished = false := (hasFinished_false_iff c).mpr (h c (List.mem_cons_self _ _))
    simp only [Game.winnerScan, hc]
    exact ih (fun c' hc' => h c' (List.mem_cons_of_mem _ hc'))

theorem winnerScan_first (env : Env) (g : Game) (cs : List Cockroach) :
    ∀ (i : Nat) (w : Cockroach), cs[i]? = some w → 750 ≤ w.x →
      (∀ (j : Nat) (c : Cockroach), j < i → cs[j]? = some c → c.x < 750) →
      Game.winnerScan env g cs = (g.resetRace env, some w.name) := by
  induction cs with
  | nil => intro i w hw; simp at hw
  | cons c rest ih =>
    intro i w hw hfin hbefore
    cases i with
    | zero =>
      simp at hw
      subst hw
      simp [Game.winnerScan, (hasFinished_iff c).mpr hfin, Cockroach.getName]
    | succ i =>
      have hc : c.hasFinished = false :=
        (hasFinished_false_iff c).mpr (hbefore 0 c (Nat.succ_pos i) (by simp))
      simp only [Game.winnerScan, hc]
      simp at hw
      exact ih i w hw hfin (fun j c' hj hc' => hbefore (j + 1) c' (by omega) (by simpa using hc'))

theorem resetRace_cockroaches (env : Env) (g : Game) :
    (g.resetRace env).cockroaches =
      [Cockroach.new env "Cockroach 1".toList 0 (env.rand g.randCalls),
       Cockroach.new env "Cockroach 2".toList 1 (env.rand (g.randCalls + 1)),
       Cockroach.new env "Cockroach 3".toList 2 (env.rand (g.randCalls + 2)),
       Cockroach.new env "Cockroach 4".toList 3 (env.rand (g.randCalls + 3)),
       Cockroach.new env "Cockroach 5".toList 4 (env.rand (g.randCalls + 4))] := rfl

theorem resetRace_players (env : Env) (g : Game) : (g.resetRace env).players = g.players := rfl

theorem winnerScan_cases (env : Env) (g : Game) (cs : List Cockroach) :
    Game.winnerScan env g cs = (g, none) ∨
      ∃ name, Game.winnerScan env g cs = (g.resetRace env, some name) := by
  induction cs with
  | nil => exact Or.inl rfl
  | cons c rest ih =>
    simp only [Game.winnerScan]
    split
    · exact Or.inr ⟨_, rfl⟩
    · exact ih

/-- C1: in `Game::update`, with `cs` the racers after the tick's advancement: when the racer
at scan index `i` has position `≥ 750` and every racer before it has position `< 750`, the
name announced is that racer's (whatever the positions of the racers after it) and the race
is reset; when every racer has position `< 750`, nothing is announced and the game keeps the
advanced racers, with no reset. -/
theorem winner_is_first_finished (env : Env) (g : Game) :
    (∀ (i : Nat) (w : Cockroach), (g.cockroaches.map tickRacer)[i]? = some w → 750 ≤ w.x →
      (∀ (j : Nat) (c : Cockroach), j < i →
        (g.cockroaches.map tickRacer)[j]? = some c → c.x < 750) →
      g.update env =
        (Game.resetRace env { g with cockroaches := g.cockroaches.map tickRacer },
          some w.name)) ∧
    ((∀ c ∈ g.cockroaches.map tickRacer, c.x < 750) →
      g.update env = ({ g with cockroaches := g.cockroaches.map tickRacer }, none)) := by
  constructor
  · intro i w hw hfin hbefore
    exact winnerScan_first env _ _ i w hw hfin hbefore
  · intro h
    exact winnerScan_none env _ _ h

/-- C1 at a tick on which B reaches 750 and C reaches 754: B, first in scan order, is
announced. -/
theorem winner_is_first_finished_witness :
    photoFinish.update sampleEnv =
      (Game.resetRace sampleEnv
        { photoFinish with cockroaches := photoFinish.cockroaches.map tickRacer },
        some (tickRacer (racerAt "B" 1 747 3)).name) ∧
    (tickRacer (racerAt "B" 1 747 3)).x = 750 ∧ (tickRacer (racerAt "C" 2 749 5)).x = 754 :=
  ⟨(winner_is_first_finished sampleEnv photoFinish).1 1 (tickRacer (racerAt "B" 1 747 3))
    (by decide) (by decide)
    (fun j c hj hc => by
      obtain rfl : j = 0 := by omega
      obtain rfl : tickRacer (racerAt "A" 0 697 3) = c := by simpa [photoFinish] using hc
      decide),
   by decide, by decide⟩

/-- C7: `resetRace` leaves exactly 5 racers, as many as a successful `init` creates; the
racer at index `i` is in lane `i`, at position 0, not stopped, with remaining-stop counter
0 and speed `rand() % 5 + 1` for its own draw of `rand()`, a value from 1 to 5; the players
are as before. A call of `Game::update` that announces a winner leaves such a race and the
same players. -/
theorem resetRace_fresh_racers (env : Env) (g : Game) :
    (g.resetRace env).cockroaches.length = 5 ∧
    ((Game.new.init env).1 = true →
      (g.resetRace env).cockroaches.length = (Game.new.init env).2.cockroaches.length) ∧
    (∀ i : Nat, i < 5 → ∃ c, (g.resetRace env).cockroaches[i]? = some c ∧
      c.lane = i ∧ c.x = 0 ∧ c.stopped = false ∧ c.stopTime = 0 ∧
      c.speed = ((env.rand (g.randCalls + i) % 5 + 1 : Nat) : Int) ∧
      1 ≤ c.speed ∧ c.speed ≤ 5) ∧
    (g.resetRace env).players = g.players ∧
    ((g.update env).2 ≠ none →
      (g.update env).1.cockroaches = (g.resetRace env).cockroaches ∧
      (g.update env).1.players = g.players) := by
  refine ⟨rfl, ?_, ?_, rfl, ?_⟩
  · intro hinit
    unfold Game.init at hinit ⊢
    split at hinit
    · simp at hinit
    · split at hinit
      · simp at hinit
      · split at hinit
        · simp at hinit
        · rename_i h1 h2 h3
          simp only [h1, h2, h3]
          rfl
  · intro i hi
    rw [resetRace_cockroaches]
    interval_cases i <;>
      simp [Cockroach.new] <;> omega
  · intro hne
    rcases winnerScan_cases env { g with cockroaches := g.cockroaches.map tickRacer }
      (g.cockroaches.map tickRacer) with h | ⟨name, h⟩
    · exact absurd (by show (g.update env).2 = none; unfold Game.update; rw [h]) hne
    · have hu : g.update env =
          (Game.resetRace env { g with cockroaches := g.cockroaches.map tickRacer }, some name) := h
      rw [hu]
      exact ⟨rfl, rfl⟩

/-- C7 at the reset that the photo-finish tick performs. -/
theorem resetRace_fresh_racers_witness :
    ((photoFinish.update sampleEnv).1.cockroaches
        = (photoFinish.resetRace sampleEnv).cockroaches ∧
      (photoFinish.update sampleEnv).1.players = photoFinish.players) ∧
    (photoFinish.resetRace sampleEnv).cockroaches.length
      = (Game.new.init sampleEnv).2.cockroaches.length ∧
    ∃ c, (photoFinish.resetRace sampleEnv).cockroaches[2]? = some c ∧
      c.lane = ((2 : Nat) : Int) ∧ c.x = 0 ∧ c.stopped = false ∧ c.stopTime = 0 ∧
      c.speed = ((sampleEnv.rand (photoFinish.randCalls + 2) % 5 + 1 : Nat) : Int) ∧
      1 ≤ c.speed ∧ c.speed ≤ 5 :=
  ⟨(resetRace_fresh_racers sampleEnv photoFinish).2.2.2.2 (by decide),
   (resetRace_fresh_racers sampleEnv photoFinish).2.1 (by decide),
   (resetRace_fresh_racers sampleEnv photoFinish).2.2.1 2 (by decide)⟩

/-! ## A whole race -/

theorem tickN_of_fresh (c : Cockroach) (hx : c.x = 0) (hrun : c.stopped = false)
    (hs : 0 ≤ c.speed) :
    ∀ t : Nat, (t : Int) * c.speed ≤ 1000 →
      (tickN t c).x = (t : Int) * c.speed ∧ (tickN t c).stopped = false ∧
        (tickN t c).speed = c.speed ∧ (tickN t c).name = c.name := by
  intro t
  induction t with
  | zero => intro _; simp [tickN, hx, hrun]
  | succ t ih =>
    intro hb
    have hexp : ((t + 1 : Nat) : Int) * c.speed = (t : Int) * c.speed + c.speed := by
      push_cast; ring
    rw [hexp] at hb ⊢
    have hnn : 0 ≤ (t : Int) * c.speed := mul_nonneg (by positivity) hs
    obtain ⟨h1, h2, h3, h4⟩ := ih (by linarith)
    rw [tickN_succ_last]
    rw [tickRacer_running _ h2 (by rw [h1, h3]; unfold INT_MIN; linarith)
      (by rw [h1, h3]; unfold INT_MAX; linarith)]
    exact ⟨by show (tickN t c).x + (tickN t c).speed = _; rw [h1, h3], h2, h3, h4⟩

theorem raceLength_facts (m s : Int) (hs1 : 1 ≤ s) (hsm : s ≤ m) (hm5 : m ≤ 5) :
    0 < raceLength m ∧ ((raceLength m : Int) - 1) * m < 750 ∧
      (raceLength m : Int) * s ≤ 1000 ∧
      (750 ≤ (raceLength m : Int) * s ↔ s = m) := by
  have hm1 : 1 ≤ m := le_trans hs1 hsm
  interval_cases m <;> interval_cases s <;> simp [raceLength]

theorem map_tickN_succ (cs : List Cockroach) (t : Nat) :
    (cs.map (tickN t)).map tickRacer = cs.map (tickN (t + 1)) := by
  rw [List.map_map]
  apply List.map_congr_left
  intro c _
  exact (tickN_succ_last t c).symm

theorem update_of_no_finisher (env : Env) (g : Game)
    (h : ∀ c ∈ g.cockroaches.map tickRacer, c.x < 750) :
    g.update env = ({ g with cockroaches := g.cockroaches.map tickRacer }, none) :=
  winnerScan_none env _ _ h

theorem quiet_ticks (env : Env) (cs : List Cockroach) (m : Int)
    (hfresh : ∀ c ∈ cs, c.x = 0 ∧ c.stopped = false ∧ 1 ≤ c.speed ∧ c.speed ≤ m) :
    ∀ (n t : Nat) (g : Game), g.cockroaches = cs.map (tickN t) →
      ((t + n : Nat) : Int) * m < 750 →
      Game.announcements env n g = List.replicate n none ∧
        (Game.updateN env n g).cockroaches = cs.map (tickN (t + n)) := by
  intro n
  induction n with
  | zero => intro t g hg _; exact ⟨rfl, hg⟩
  | succ n ih =>
    intro t g hg hb
    have hquiet : ∀ c ∈ g.cockroaches.map tickRacer, c.x < 750 := by
      rw [hg, map_tickN_succ]
      intro c hc
      obtain ⟨c0, hc0, rfl⟩ := List.mem_map.mp hc
      obtain ⟨hx, hrun, hs1, hsm⟩ := hfresh c0 hc0
      have hle : ((t + 1 : Nat) : Int) * c0.speed ≤ ((t + (n + 1) : Nat) : Int) * m := by
        apply mul_le_mul
        · push_cast; omega
        · exact hsm
        · omega
        · positivity
      rw [(tickN_of_fresh c0 hx hrun (by omega) (t + 1) (by omega)).1]
      omega
    have hu := update_of_no_finisher env g hquiet
    have hg1 : (g.update env).1.cockroaches = cs.map (tickN (t + 1)) := by
      rw [hu]
      show g.cockroaches.map tickRacer = _
      rw [hg, map_tickN_succ]
    have hb1 : ((t + 1 + n : Nat) : Int) * m < 750 := by
      have : t + 1 + n = t + (n + 1) := by omega
      rw [this]; exact hb
    obtain ⟨ha, hc⟩ := ih (t + 1) (g.update env).1 hg1 hb1
    refine ⟨?_, ?_⟩
    · show (g.update env).2 :: Game.announcements env n (g.update env).1 = _
      rw [ha, hu]
      rfl
    · show (Game.updateN env n (g.update env).1).cockroaches = _
      rw [hc]
      have : t + 1 + n = t + (n + 1) := by omega
      rw [this]

theorem announcements_succ_last (env : Env) (n : Nat) (g : Game) :
    Game.announcements env (n + 1) g =
      Game.announcements env n g ++ [((Game.updateN env n g).update env).2] := by
  induction n generalizing g with
  | zero => rfl
  | succ n ih =>
    show (g.update env).2 :: Game.announcements env (n + 1) (g.update env).1 = _
    rw [ih (g.update env).1]
    rfl

/-- C9: from a race whose racers are all at position 0 and not stopped, with speeds from 1
to 5 of which `m` is the largest, the first `raceLength m - 1` calls of `Game::update`
announce nothing and call number `raceLength m` (750 / m rounded up) announces the racer of
smallest scan index among those of speed `m`. -/
theorem fastest_first_in_scan_order_wins (env : Env) (g : Game) (m : Int)
    (hfresh : ∀ c ∈ g.cockroaches, c.x = 0 ∧ c.stopped = false ∧ 1 ≤ c.speed ∧ c.speed ≤ 5)
    (hmax : ∀ c ∈ g.cockroaches, c.speed ≤ m)
    (i : Nat) (w : Cockroach) (hw : g.cockroaches[i]? = some w) (hwm : w.speed = m)
    (hfirst : ∀ (j : Nat) (c : Cockroach), j < i → g.cockroaches[j]? = some c → c.speed ≠ m) :
    Game.announcements env (raceLength m) g =
      List.replicate (raceLength m - 1) none ++ [some w.name] := by
  have hwmem : w ∈ g.cockroaches := List.getElem?_mem hw
  have hm1 : 1 ≤ m := by rw [← hwm]; exact (hfresh w hwmem).2.2.1
  have hm5 : m ≤ 5 := by rw [← hwm]; exact (hfresh w hwmem).2.2.2
  have hfresh2 : ∀ c ∈ g.cockroaches, c.x = 0 ∧ c.stopped = false ∧ 1 ≤ c.speed ∧ c.speed ≤ m :=
    fun c hc => ⟨(hfresh c hc).1, (hfresh c hc).2.1, (hfresh c hc).2.2.1, hmax c hc⟩
  obtain ⟨hpos, hbefore, -, -⟩ := raceLength_facts m m hm1 (le_refl m) hm5
  obtain ⟨T, hT⟩ : ∃ T : Nat, raceLength m = T + 1 := ⟨raceLength m - 1, by omega⟩
  have hTm : ((0 + T : Nat) : Int) * m < 750 := by
    have : ((0 + T : Nat) : Int) = (raceLength m : Int) - 1 := by rw [hT]; push_cast; omega
    rw [this]; exact hbefore
  obtain ⟨hquiet, hstate⟩ := quiet_ticks env g.cockroaches m hfresh2 T 0 g (by simp [tickN]) hTm
  have hfacts : ∀ c ∈ g.cockroaches,
      (tickN (T + 1) c).x = ((T + 1 : Nat) : Int) * c.speed ∧ (tickN (T + 1) c).name = c.name := by
    intro c hc
    obtain ⟨hx, hrun, hs1, hsm⟩ := hfresh2 c hc
    have hle := (raceLength_facts m c.speed hs1 hsm hm5).2.2.1
    rw [hT] at hle
    obtain ⟨h1, -, -, h4⟩ := tickN_of_fresh c hx hrun (by omega) (T + 1) hle
    exact ⟨h1, h4⟩
  have hlast : ((Game.updateN env T g).update env).2 = some w.name := by
    have hticked : (Game.updateN env T g).cockroaches.map tickRacer
        = g.cockroaches.map (tickN (T + 1)) := by
      rw [hstate, Nat.zero_add, map_tickN_succ]
    have hscan := winnerScan_first env
      { Game.updateN env T g with
        cockroaches := (Game.updateN env T g).cockroaches.map tickRacer }
      ((Game.updateN env T g).cockroaches.map tickRacer) i (tickN (T + 1) w)
      (by rw [hticked]; simp [hw])
      (by
        rw [(hfacts w hwmem).1, hwm]
        have := (raceLength_facts m m hm1 (le_refl m) hm5).2.2.2
        rw [hT] at this
        exact this.mpr rfl)
      (by
        intro j c hj hc
        rw [hticked] at hc
        simp only [List.getElem?_map, Option.map_eq_some'] at hc
        obtain ⟨c0, hc0, rfl⟩ := hc
        have hc0mem : c0 ∈ g.cockroaches := List.getElem?_mem hc0
        obtain ⟨-, -, hs1, hsm⟩ := hfresh2 c0 hc0mem
        rw [(hfacts c0 hc0mem).1]
        have hiff := (raceLength_facts m c0.speed hs1 hsm hm5).2.2.2
        rw [hT] at hiff
        by_contra hge
        exact hfirst j c0 hj hc0 (hiff.mp (by omega)))
    show (Game.winnerScan env _ _).2 = _
    rw [hscan, (hfacts w hwmem).2]
  rw [hT, announcements_succ_last, hquiet, hlast]
  simp

/-- C9 at the first race of the sample environment, speeds 4, 5, 3, 3, 5: nothing is
announced for 149 ticks, then "Cockroach 2", the first of the two racers of speed 5. -/
theorem fastest_first_in_scan_order_wins_witness :
    raceLength 5 = 150 ∧
    sampleStart.cockroaches.map (fun c => c.speed) = [4, 5, 3, 3, 5] ∧
    Game.announcements sampleEnv (raceLength 5) sampleStart =
      List.replicate (raceLength 5 - 1) none ++ [some "Cockroach 2".toList] :=
  ⟨by decide, by decide,
   fastest_first_in_scan_order_wins sampleEnv sampleStart 5
    (by decide) (by decide) 1
    (Cockroach.new sampleEnv "Cockroach 2".toList 1 (sampleEnv.rand 1)) rfl (by decide)
    (fun j c hj hc => by
      obtain rfl : j = 0 := by omega
      have hrace : sampleStart.cockroaches = (Game.new.resetRace sampleEnv).cockroaches := rfl
      obtain rfl : Cockroach.new sampleEnv "Cockroach 1".toList 0 (sampleEnv.rand 0) = c := by
        simpa [hrace, resetRace_cockroaches] using hc
      decide)⟩

/-! ## The setup screen -/

theorem vecGet?_of_inRange {α : Type} (v : List α) (i : Int) (h0 : 0 ≤ i)
    (hlt : i < (v.length : Int)) : ∃ a, vecGet? v i = some a := by
  have hn : i.toNat < v.length := by omega
  exact ⟨v[i.toNat], by simp [vecGet?, h0, hlt, List.getElem?_eq_getElem hn]⟩

theorem vecResize_length (v : List CppString) (n : Int) (hn : 0 ≤ n) :
    ((vecResize v n).length : Int) = n := by
  simp only [vecResize, List.length_append, List.length_take, List.length_replicate]
  omega

theorem SetupInv_of_draft_eq (g g1 : Game) (h : g1.draft = g.draft) (hinv : g.SetupInv) :
    g1.SetupInv := by
  simp only [Game.draft, Prod.mk.injEq] at h
  obtain ⟨h1, h2, h3⟩ := h
  unfold Game.SetupInv at hinv ⊢
  rw [h1, h2, h3]
  exact hinv

theorem numberButton_inv (x y : Int) (g : Game) (i : Int) (h0 : 0 ≤ i) (h4 : i ≤ 4)
    (hinv : g.SetupInv) : (Game.numberButton x y g i).SetupInv := by
  unfold Game.numberButton
  split
  · refine ⟨vecResize_length _ _ (by omega), le_refl 0, ?_, ?_, ?_⟩
    · intro _; show (0 : Int) < i + 1; omega
    · intro _; rfl
    · show i + 1 ≤ 5; omega
  · exact hinv

theorem numberButtons_inv (x y : Int) (g : Game) (hinv : g.SetupInv) :
    ([0, 1, 2, 3, 4].foldl (Game.numberButton x y) g).SetupInv := by
  simp only [List.foldl]
  exact numberButton_inv x y _ 4 (by decide) (by decide)
    (numberButton_inv x y _ 3 (by decide) (by decide)
      (numberButton_inv x y _ 2 (by decide) (by decide)
        (numberButton_inv x y _ 1 (by decide) (by decide)
          (numberButton_inv x y _ 0 (by decide) (by decide) hinv))))

theorem numberButtons_of_miss (x y : Int) (g : Game) (hx : 250 < x) :
    [0, 1, 2, 3, 4].foldl (Game.numberButton x y) g = g := by
  have hmiss : ∀ (g : Game) (i : Int), Game.numberButton x y g i = g := by
    intro g i
    unfold Game.numberButton
    rw [if_neg (by omega)]
  simp only [List.foldl, hmiss]

theorem numberButton_of_hit (x y i : Int) (hx : 50 ≤ x ∧ x ≤ 250)
    (hy : 50 + i * 60 ≤ y ∧ y ≤ 100 + i * 60) (g : Game) (k : Int) :
    Game.numberButton x y g k =
      if k = i then
        { g with
          numPlayers := i + 1
          playerInputs := vecResize g.playerInputs (i + 1)
          currentInput := 0 }
      else g := by
  unfold Game.numberButton
  by_cases hk : k = i
  · subst hk
    rw [if_pos (by omega), if_pos rfl]
  · rw [if_neg (by omega), if_neg hk]

theorem numberButtons_of_hit (x y i : Int) (h0 : 0 ≤ i) (h4 : i ≤ 4) (hx : 50 ≤ x ∧ x ≤ 250)
    (hy : 50 + i * 60 ≤ y ∧ y ≤ 100 + i * 60) (g : Game) :
    [0, 1, 2, 3, 4].foldl (Game.numberButton x y) g =
      { g with
        numPlayers := i + 1
        playerInputs := vecResize g.playerInputs (i + 1)
        currentInput := 0 } := by
  simp only [List.foldl, numberButton_of_hit x y i hx hy]
  interval_cases i <;> simp

theorem validateLoop_spec (inputs : List CppString) :
    ∀ (todo : Nat) (i : Int) (players : List Player), 0 ≤ i →
      i + (todo : Int) ≤ (inputs.length : Int) →
      ∃ ok ps, validateLoop inputs todo i players = some (ok, ps) ∧
        (ok = true ↔ ∀ j : Int, i ≤ j → j < i + (todo : Int) →
          ∃ s, vecGet? inputs j = some s ∧ s ≠ []) := by
  intro todo
  induction todo with
  | zero =>
    intro i players _ _
    exact ⟨true, players, rfl, by simp; intro j h1 h2; omega⟩
  | succ todo ih =>
    intro i players h0 hlen
    push_cast at hlen
    obtain ⟨s, hs⟩ := vecGet?_of_inRange inputs i h0 (by omega)
    by_cases hempty : s = []
    · refine ⟨false, players, by simp [validateLoop, hs, hempty], ?_⟩
      simp only [Bool.false_eq_true, false_iff, not_forall]
      refine ⟨i, le_refl i, by push_cast; omega, ?_⟩
      rintro ⟨s', hs', hne⟩
      rw [hs] at hs'
      exact hne (by rw [← Option.some.inj hs', hempty])
    · obtain ⟨ok, ps, hrun, hiff⟩ :=
        ih (i + 1) (players ++ [{ name := s, cockroachIndex := i }]) (by omega) (by omega)
      refine ⟨ok, ps, by simp [validateLoop, hs, hempty, hrun], ?_⟩
      rw [hiff]
      constructor
      · intro h j hj1 hj2
        by_cases hji : j = i
        · subst hji; exact ⟨s, hs, hempty⟩
        · exact h j (by omega) (by push_cast at hj2; omega)
      · intro h j hj1 hj2
        exact h j (by omega) (by push_cast; omega)

theorem validatePlayerInputs_spec (g : Game) (hinv : g.SetupInv) :
    ∃ ok g1, g.validatePlayerInputs = some (ok, g1) ∧ g1.draft = g.draft ∧
      g1.gameStarted = g.gameStarted ∧
      (ok = true ↔ ∀ j : Int, 0 ≤ j → j < g.numPlayers →
        ∃ s, vecGet? g.playerInputs j = some s ∧ s ≠ []) := by
  obtain ⟨hlen, -, -, -, -⟩ := hinv
  have hn : (g.numPlayers.toNat : Int) = g.numPlayers := by omega
  obtain ⟨ok, ps, hrun, hiff⟩ :=
    validateLoop_spec g.playerInputs g.numPlayers.toNat 0 g.players (le_refl 0) (by omega)
  refine ⟨ok, { g with players := ps }, by simp [Game.validatePlayerInputs, hrun], rfl, rfl, ?_⟩
  rw [hiff, hn]
  simp

theorem handleMouseButtonDown_start (g : Game) (hinv : g.SetupInv) (x y : Int)
    (hx : 350 ≤ x ∧ x ≤ 450) (hy : 500 ≤ y ∧ y ≤ 550) :
    ∃ g1, g.handleMouseButtonDown x y = some g1 ∧ g1.draft = g.draft ∧
      (g.gameStarted = false → (g1.gameStarted = true ↔
        (0 < g.numPlayers ∧ ∀ j : Int, 0 ≤ j → j < g.numPlayers →
          ∃ s, vecGet? g.playerInputs j = some s ∧ s ≠ []))) := by
  have hbtn : x ≥ 350 ∧ x ≤ 450 ∧ y ≥ 500 ∧ y ≤ 550 := by omega
  unfold Game.handleMouseButtonDown
  simp only [if_pos hbtn, numberButtons_of_miss x y _ (by omega : 250 < x)]
  by_cases hnp : g.numPlayers > 0
  · obtain ⟨ok, g1, hval, hdraft, hstarted, hiff⟩ := validatePlayerInputs_spec g hinv
    simp only [if_pos hnp, hval]
    cases ok with
    | true =>
      refine ⟨{ g1 with gameStarted := true }, rfl, hdraft, fun _ => ?_⟩
      simp only [true_iff]
      exact ⟨hnp, hiff.mp rfl⟩
    | false =>
      refine ⟨g1, rfl, hdraft, fun hs => ?_⟩
      rw [hstarted, hs]
      simp only [Bool.false_eq_true, false_iff, not_and]
      intro _ hall
      exact Bool.false_ne_true (hiff.mpr hall)
  · simp only [if_neg hnp]
    refine ⟨g, rfl, rfl, fun hs => ?_⟩
    rw [hs]
    simp only [Bool.false_eq_true, false_iff, not_and]
    intro h
    exact absurd h hnp

theorem handleMouseButtonDown_inv (g : Game) (hinv : g.SetupInv) (x y : Int) (g1 : Game)
    (h : g.handleMouseButtonDown x y = some g1) : g1.SetupInv := by
  unfold Game.handleMouseButtonDown at h
  by_cases hbtn : x ≥ 350 ∧ x ≤ 450 ∧ y ≥ 500 ∧ y ≤ 550
  · by_cases hnp : g.numPlayers > 0
    · obtain ⟨ok, g2, hval, hdraft, -, -⟩ := validatePlayerInputs_spec g hinv
      simp only [if_pos hbtn, if_pos hnp, hval, Option.some.injEq] at h
      rw [← h]
      apply numberButtons_inv
      cases ok
      · exact SetupInv_of_draft_eq g g2 hdraft hinv
      · exact SetupInv_of_draft_eq g _ hdraft hinv
    · simp only [if_pos hbtn, if_neg hnp, Option.some.injEq] at h
      rw [← h]
      exact numberButtons_inv x y g hinv
  · simp only [if_neg hbtn, Option.some.injEq] at h
    rw [← h]
    exact numberButtons_inv x y g hinv

theorem vecSet_length {α : Type} (v : List α) (i : Int) (a : α) :
    (vecSet v i a).length = v.length := by
  simp [vecSet]

theorem handleTextInput_return (g : Game) (hinv : g.SetupInv) :
    g.handleTextInput (.SDL_KEYDOWN .SDLK_RETURN) =
      some { g with
        currentInput := if g.currentInput + 1 ≥ g.numPlayers then 0 else g.currentInput + 1 } := by
  obtain ⟨hlen, h0, hlt, hzero, h5⟩ := hinv
  have hci : g.currentInput ≤ 5 := by
    by_cases hn : 0 < g.numPlayers
    · have := hlt hn; omega
    · by_cases hz : g.numPlayers = 0
      · rw [hzero hz]; decide
      · omega
  have hw : wrapInt (g.currentInput + 1) = g.currentInput + 1 :=
    wrapInt_of_inRange _ (by unfold INT_MIN; omega) (by unfold INT_MAX; omega)
  simp only [Game.handleTextInput, hw]

theorem handleTextInput_inv (g : Game) (hinv : g.SetupInv) (e : Event) (g1 : Game)
    (h : g.handleTextInput e = some g1) : g1.SetupInv := by
  have hinv0 := hinv
  obtain ⟨hlen, h0, hlt, hzero, h5⟩ := hinv
  cases e with
  | SDL_QUIT => simp only [Game.handleTextInput, Option.some.injEq] at h; rw [← h]; exact hinv0
  | SDL_MOUSEBUTTONDOWN x y =>
    simp only [Game.handleTextInput, Option.some.injEq] at h; rw [← h]; exact hinv0
  | other => simp only [Game.handleTextInput, Option.some.injEq] at h; rw [← h]; exact hinv0
  | SDL_TEXTINPUT text =>
    simp only [Game.handleTextInput] at h
    split at h
    · exact absurd h (by simp)
    · simp only [Option.some.injEq] at h
      rw [← h]
      exact ⟨by show ((vecSet _ _ _).length : Int) = _; rw [vecSet_length]; exact hlen,
        h0, hlt, hzero, h5⟩
  | SDL_KEYDOWN sym =>
    cases sym with
    | other => simp only [Game.handleTextInput, Option.some.injEq] at h; rw [← h]; exact hinv0
    | SDLK_BACKSPACE =>
      simp only [Game.handleTextInput] at h
      split at h
      · exact absurd h (by simp)
      · split at h
        · simp only [Option.some.injEq] at h
          rw [← h]
          exact ⟨by show ((vecSet _ _ _).length : Int) = _; rw [vecSet_length]; exact hlen,
            h0, hlt, hzero, h5⟩
        · simp only [Option.some.injEq] at h
          rw [← h]; exact hinv0
    | SDLK_RETURN =>
      rw [handleTextInput_return g hinv0, Option.some.injEq] at h
      rw [← h]
      refine ⟨hlen, ?_, ?_, ?_, h5⟩
      · show 0 ≤ (if g.currentInput + 1 ≥ g.numPlayers then 0 else g.currentInput + 1)
        split <;> omega
      · intro (hn : 0 < g.numPlayers)
        show (if g.currentInput + 1 ≥ g.numPlayers then 0 else g.currentInput + 1) < g.numPlayers
        split
        · exact hn
        · omega
      · intro (hz : g.numPlayers = 0)
        show (if g.currentInput + 1 ≥ g.numPlayers then 0 else g.currentInput + 1) = 0
        rw [if_pos (by omega)]

theorem handleStartScreenEvent_inv (g : Game) (hinv : g.SetupInv) (e : Event) (g1 : Game)
    (h : g.handleStartScreenEvent e = some g1) : g1.SetupInv := by
  cases e with
  | SDL_QUIT =>
    simp only [Game.handleStartScreenEvent, Option.some.injEq] at h
    rw [← h]; exact hinv
  | SDL_MOUSEBUTTONDOWN x y => exact handleMouseButtonDown_inv g hinv x y g1 h
  | SDL_TEXTINPUT text => exact handleTextInput_inv g hinv (.SDL_TEXTINPUT text) g1 h
  | SDL_KEYDOWN sym => exact handleTextInput_inv g hinv (.SDL_KEYDOWN sym) g1 h
  | other =>
    simp only [Game.handleStartScreenEvent, Option.some.injEq] at h
    rw [← h]; exact hinv

theorem handleStartScreenEvents_inv (evs : List Event) :
    ∀ (g g1 : Game), g.SetupInv → g.handleStartScreenEvents evs = some g1 → g1.SetupInv := by
  induction evs with
  | nil =>
    intro g g1 hinv h
    simp only [Game.handleStartScreenEvents, Option.some.injEq] at h
    rw [← h]; exact hinv
  | cons e es ih =>
    intro g g1 hinv h
    simp only [Game.handleStartScreenEvents] at h
    split at h
    · exact absurd h (by simp)
    · rename_i g2 hstep
      exact ih g2 g1 (handleStartScreenEvent_inv g hinv e g2 hstep) h

theorem SetupInv_of_initial (g0 : Game) (h0 : g0.draft = Game.new.draft) : g0.SetupInv := by
  simp only [Game.draft, Game.new, Prod.mk.injEq] at h0
  obtain ⟨h1, h2, h3⟩ := h0
  unfold Game.SetupInv
  rw [h1, h2, h3]
  simp

theorem SetupInv_of_reachable (g0 : Game) (h0 : g0.draft = Game.new.draft) (evs : List Event)
    (g : Game) (h : g0.handleStartScreenEvents evs = some g) : g.SetupInv :=
  handleStartScreenEvents_inv evs g0 g (SetupInv_of_initial g0 h0) h

theorem handleStartScreenEvents_snoc (evs : List Event) (e : Event) :
    ∀ (g0 g : Game), g0.handleStartScreenEvents evs = some g →
      g0.handleStartScreenEvents (evs ++ [e]) = g.handleStartScreenEvent e := by
  induction evs with
  | nil =>
    intro g0 g h
    simp only [Game.handleStartScreenEvents, Option.some.injEq] at h
    subst h
    show g0.handleStartScreenEvents [e] = _
    simp only [Game.handleStartScreenEvents]
    cases g0.handleStartScreenEvent e <;> rfl
  | cons e0 es ih =>
    intro g0 g h
    simp only [Game.handleStartScreenEvents] at h
    show g0.handleStartScreenEvents (e0 :: (es ++ [e])) = _
    simp only [Game.handleStartScreenEvents]
    cases hstep : g0.handleStartScreenEvent e0 with
    | none => rw [hstep] at h; exact absurd h (by simp)
    | some g1 =>
      rw [hstep] at h
      exact ih g1 g h

theorem focused_slot_events (g : Game) (hlen : (g.playerInputs.length : Int) = g.numPlayers)
    (hge : 0 ≤ g.currentInput) (hlt : g.currentInput < g.numPlayers) :
    ∃ s, vecGet? g.playerInputs g.currentInput = some s ∧
      (∀ text, g.handleStartScreenEvent (.SDL_TEXTINPUT text) =
        some { g with playerInputs := vecSet g.playerInputs g.currentInput (s ++ text) }) ∧
      g.handleStartScreenEvent (.SDL_KEYDOWN .SDLK_BACKSPACE) =
        some (if s = [] then g
          else { g with playerInputs := vecSet g.playerInputs g.currentInput s.dropLast }) := by
  obtain ⟨s, hs⟩ := vecGet?_of_inRange g.playerInputs g.currentInput hge (by omega)
  refine ⟨s, hs, ?_, ?_⟩
  · intro text
    simp only [Game.handleStartScreenEvent, Game.handleTextInput, hs]
  · simp only [Game.handleStartScreenEvent, Game.handleTextInput, hs]
    by_cases hempty : s = []
    · subst hempty
      simp
    · have hne : s.isEmpty = false := by
        cases s with
        | nil => exact absurd rfl hempty
        | cons c cs => rfl
      simp [hne, hempty]

theorem return_key_event (g : Game) (hge : 0 ≤ g.currentInput)
    (hlt : g.currentInput < g.numPlayers) (hmax : g.numPlayers ≤ INT_MAX) :
    g.handleStartScreenEvent (.SDL_KEYDOWN .SDLK_RETURN) =
      some { g with currentInput := (g.currentInput + 1) % g.numPlayers } := by
  have hw : wrapInt (g.currentInput + 1) = g.currentInput + 1 :=
    wrapInt_of_inRange _ (by unfold INT_MIN; omega) (by omega)
  have hmod : (if g.currentInput + 1 ≥ g.numPlayers then 0 else g.currentInput + 1) =
      (g.currentInput + 1) % g.numPlayers := by
    by_cases hwrap : g.currentInput + 1 ≥ g.numPlayers
    · have heq : g.currentInput + 1 = g.numPlayers := by omega
      rw [if_pos hwrap, heq, Int.emod_self]
    · rw [if_neg hwrap, Int.emod_eq_of_lt (by omega) (by omega)]
  simp only [Game.handleStartScreenEvent, Game.handleTextInput, hw, hmod]

theorem number_button_event (g : Game) (i x y : Int) (h0 : 0 ≤ i) (h4 : i ≤ 4)
    (hx : 50 ≤ x ∧ x ≤ 250) (hy : 50 + i * 60 ≤ y ∧ y ≤ 100 + i * 60) :
    g.handleStartScreenEvent (.SDL_MOUSEBUTTONDOWN x y) =
      some { g with
        numPlayers := i + 1
        playerInputs := vecResize g.playerInputs (i + 1)
        currentInput := 0 } := by
  have hnostart : ¬ (x ≥ 350 ∧ x ≤ 450 ∧ y ≥ 500 ∧ y ≤ 550) := by omega
  show g.handleMouseButtonDown x y = _
  unfold Game.handleMouseButtonDown
  simp only [if_neg hnostart, numberButtons_of_hit x y i h0 h4 hx hy]

/-- C10: in every state `g` that a sequence of setup events reaches from an initial game
(one whose player count, drafts and focus index are as the constructor leaves them):
the draft buffer has as many entries as the player count, the focus index is `≥ 0` and,
when the player count is positive, below it, and the count is at most 5; one more event
leads to what the handler returns at `g`; a click inside the numbered button `i` is handled
and chooses the player count `i + 1 > 0` with `i + 1` draft slots and focus 0; with a
positive player count the focused draft slot exists, text input appends to it and backspace
removes its last character if it has one; the return key is handled and sets the focus to
`(focus + 1) mod count` when the count is positive and leaves it at 0 when the count is 0.
The same holds of text input, backspace and the return key in every game, reached or
not, that has one draft per declared slot and a focus index inside the declared slots. -/
theorem setup_invariant (g0 : Game) (h0 : g0.draft = Game.new.draft) (evs : List Event)
    (g : Game) (hreach : g0.handleStartScreenEvents evs = some g) :
    ((g.playerInputs.length : Int) = g.numPlayers ∧ 0 ≤ g.currentInput ∧
      (0 < g.numPlayers → g.currentInput < g.numPlayers) ∧ g.numPlayers ≤ 5) ∧
    (∀ e : Event, g0.handleStartScreenEvents (evs ++ [e]) = g.handleStartScreenEvent e) ∧
    (∀ i x y : Int, 0 ≤ i → i ≤ 4 → (50 ≤ x ∧ x ≤ 250) →
      (50 + i * 60 ≤ y ∧ y ≤ 100 + i * 60) →
      ∃ g1, g.handleStartScreenEvent (.SDL_MOUSEBUTTONDOWN x y) = some g1 ∧
        g1.numPlayers = i + 1 ∧ 0 < g1.numPlayers ∧
        (g1.playerInputs.length : Int) = i + 1 ∧ g1.currentInput = 0) ∧
    (0 < g.numPlayers →
      ∃ s, vecGet? g.playerInputs g.currentInput = some s ∧
        (∀ text, g.handleStartScreenEvent (.SDL_TEXTINPUT text) =
          some { g with playerInputs := vecSet g.playerInputs g.currentInput (s ++ text) }) ∧
        g.handleStartScreenEvent (.SDL_KEYDOWN .SDLK_BACKSPACE) =
          some (if s = [] then g
            else { g with playerInputs := vecSet g.playerInputs g.currentInput s.dropLast })) ∧
    g.handleStartScreenEvent (.SDL_KEYDOWN .SDLK_RETURN) =
      some { g with
        currentInput :=
          if 0 < g.numPlayers then (g.currentInput + 1) % g.numPlayers else 0 } ∧
    (∀ g2 : Game, (g2.playerInputs.length : Int) = g2.numPlayers → 0 ≤ g2.currentInput →
      g2.currentInput < g2.numPlayers → g2.numPlayers ≤ INT_MAX →
      (∃ s, vecGet? g2.playerInputs g2.currentInput = some s ∧
        (∀ text, g2.handleStartScreenEvent (.SDL_TEXTINPUT text) =
          some { g2 with
            playerInputs := vecSet g2.playerInputs g2.currentInput (s ++ text) }) ∧
        g2.handleStartScreenEvent (.SDL_KEYDOWN .SDLK_BACKSPACE) =
          some (if s = [] then g2
            else { g2 with
              playerInputs := vecSet g2.playerInputs g2.currentInput s.dropLast })) ∧
      g2.handleStartScreenEvent (.SDL_KEYDOWN .SDLK_RETURN) =
        some { g2 with currentInput := (g2.currentInput + 1) % g2.numPlayers }) := by
  have hinv := SetupInv_of_reachable g0 h0 evs g hreach
  obtain ⟨hlen, hge, hlt, hzero, h5⟩ := hinv
  refine ⟨⟨hlen, hge, hlt, h5⟩, ?_, ?_, ?_, ?_, ?_⟩
  · intro e
    exact handleStartScreenEvents_snoc evs e g0 g hreach
  · intro i x y hi0 hi4 hx hy
    exact ⟨_, number_button_event g i x y hi0 hi4 hx hy, rfl, by show (0 : Int) < i + 1; omega,
      vecResize_length g.playerInputs (i + 1) (by omega), rfl⟩
  · intro hn
    exact focused_slot_events g hlen hge (hlt hn)
  · by_cases hn : 0 < g.numPlayers
    · rw [if_pos hn]
      exact return_key_event g hge (hlt hn) (by unfold INT_MAX; omega)
    · have hz : g.numPlayers = 0 := by omega
      rw [if_neg hn]
      show g.handleTextInput (.SDL_KEYDOWN .SDLK_RETURN) = _
      rw [handleTextInput_return g ⟨hlen, hge, hlt, hzero, h5⟩, if_pos (by rw [hz, hzero hz]; decide)]
  · intro g2 hlen2 hge2 hlt2 hmax2
    exact ⟨focused_slot_events g2 hlen2 hge2 hlt2, return_key_event g2 hge2 hlt2 hmax2⟩

/-- C10 at the state after choosing three players, pressing return and typing "Al": three
draft slots with focus 1; the return key moves the focus to 2 and, from 2, back to 0; text
input and backspace edit the focused draft; a click on the first numbered button chooses
one player. -/
theorem setup_invariant_witness :
    sampleStart.handleStartScreenEvents [clickNumber 2, pressReturn, typeText "Al"]
      = some sampleSetup ∧
    ((sampleSetup.playerInputs.length : Int) = sampleSetup.numPlayers ∧
      sampleSetup.numPlayers = 3 ∧ sampleSetup.currentInput = 1) ∧
    sampleStart.handleStartScreenEvents
        [clickNumber 2, pressReturn, typeText "Al", pressReturn]
      = some { sampleSetup with currentInput := 2 } ∧
    ({ sampleSetup with currentInput := 2 } : Game).handleStartScreenEvent pressReturn
      = some { sampleSetup with currentInput := 0 } ∧
    sampleSetup.handleStartScreenEvent (typeText "ice")
      = some { sampleSetup with playerInputs := [[], "Alice".toList, []] } ∧
    sampleSetup.handleStartScreenEvent (.SDL_KEYDOWN .SDLK_BACKSPACE)
      = some { sampleSetup with playerInputs := [[], "A".toList, []] } ∧
    (∃ g1, sampleSetup.handleStartScreenEvent (clickNumber 0) = some g1 ∧
      g1.numPlayers = 1 ∧ (g1.playerInputs.length : Int) = 1 ∧ g1.currentInput = 0) :=
  have h := setup_invariant sampleStart rfl [clickNumber 2, pressReturn, typeText "Al"]
    sampleSetup rfl
  have hfocus := h.2.2.2.1 (by decide)
  have hturn := (h.2.2.2.2.2 { sampleSetup with currentInput := 2 } rfl (by decide)
    (by decide) (by decide)).2
  have hclick := h.2.2.1 0 100 60 (by decide) (by decide) (by decide) (by decide)
  ⟨rfl, ⟨h.1.1, rfl, rfl⟩,
    ((h.2.1 pressReturn).trans h.2.2.2.2.1).trans (by decide),
    hturn.trans (by decide),
    (hfocus.choose_spec.2.1 "ice".toList).trans (by
      have hs : hfocus.choose = "Al".toList :=
        Option.some.inj (hfocus.choose_spec.1.symm.trans (by decide))
      rw [hs]; decide),
    hfocus.choose_spec.2.2.trans (by
      have hs : hfocus.choose = "Al".toList :=
        Option.some.inj (hfocus.choose_spec.1.symm.trans (by decide))
      rw [hs]; decide),
    ⟨hclick.choose, hclick.choose_spec.1, hclick.choose_spec.2.1,
      hclick.choose_spec.2.2.2.1, hclick.choose_spec.2.2.2.2⟩⟩

/-- C3: in a state of the setup screen (reached from an initial game, not yet started), a
click inside the start button is handled, starts the race exactly when the player count is
positive and every draft of slots `0..count-1` is non-empty, and otherwise leaves the
screen in setup; the draft state (player count, drafts, focus index) is as before. -/
theorem start_click_succeeds_iff (g0 : Game) (h0 : g0.draft = Game.new.draft)
    (evs : List Event) (g : Game)
    (hreach : g0.handleStartScreenEvents evs = some g) (hsetup : g.gameStarted = false)
    (x y : Int) (hx : 350 ≤ x ∧ x ≤ 450) (hy : 500 ≤ y ∧ y ≤ 550) :
    ∃ g1, g.handleStartScreenEvent (.SDL_MOUSEBUTTONDOWN x y) = some g1 ∧
      (g1.gameStarted = true ↔
        (0 < g.numPlayers ∧ ∀ j : Int, 0 ≤ j → j < g.numPlayers →
          ∃ s, vecGet? g.playerInputs j = some s ∧ s ≠ [])) ∧
      (¬ (0 < g.numPlayers ∧ ∀ j : Int, 0 ≤ j → j < g.numPlayers →
          ∃ s, vecGet? g.playerInputs j = some s ∧ s ≠ []) →
        g1.gameStarted = false ∧ g1.numPlayers = g.numPlayers ∧
          g1.playerInputs = g.playerInputs ∧ g1.currentInput = g.currentInput) := by
  obtain ⟨g1, hstep, hdraft, hiff⟩ :=
    handleMouseButtonDown_start g (SetupInv_of_reachable g0 h0 evs g hreach) x y hx hy
  simp only [Game.draft, Prod.mk.injEq] at hdraft
  refine ⟨g1, hstep, hiff hsetup, fun hnot => ⟨?_, hdraft.1, hdraft.2.1, hdraft.2.2⟩⟩
  cases hg : g1.gameStarted with
  | false => rfl
  | true => exact absurd ((hiff hsetup).mp hg) hnot

/-- C3 at the drafts "Alice", "", "Bob": the start click leaves the setup screen and the
draft state as they are. -/
theorem start_click_succeeds_iff_witness :
    ∃ g g1,
      sampleStart.handleStartScreenEvents
        [clickNumber 2, typeText "Alice", pressReturn, pressReturn, typeText "Bob"] = some g ∧
      g.handleStartScreenEvent clickStart = some g1 ∧ g1.gameStarted = false ∧
      g1.playerInputs = ["Alice".toList, [], "Bob".toList] :=
  have h := start_click_succeeds_iff sampleStart rfl
    [clickNumber 2, typeText "Alice", pressReturn, pressReturn, typeText "Bob"] _ rfl rfl
    400 520 (by decide) (by decide)
  ⟨_, h.choose, rfl, h.choose_spec.1,
    (h.choose_spec.2.2 (fun hc => by
      obtain ⟨s, hs, hne⟩ := hc.2 1 (by decide) (by decide)
      have : s = [] := by
        have h2 : vecGet? ["Alice".toList, [], "Bob".toList] 1 = some s := hs
        simpa [vecGet?] using h2.symm
      exact hne this)).1,
    (h.choose_spec.2.2 (fun hc => by
      obtain ⟨s, hs, hne⟩ := hc.2 1 (by decide) (by decide)
      have : s = [] := by
        have h2 : vecGet? ["Alice".toList, [], "Bob".toList] 1 = some s := hs
        simpa [vecGet?] using h2.symm
      exact hne this)).2.2.1⟩

/-- C4, as the claim states it, fails: after choosing one player and typing "A", a click on
the button for two players leaves the drafts "A" and "", not two empty strings. -/
theorem number_click_keeps_typed_draft :
    (sampleStart.handleStartScreenEvents [clickNumber 0, typeText "A", clickNumber 1]).map
        Game.draft = some (2, ["A".toList, []], 0) ∧
      ["A".toList, []] ≠ List.replicate 2 ([] : CppString) := by
  decide

/-- C4, amended: a click inside the numbered button `i` (`0 ≤ i ≤ 4`) is handled, sets the
player count to `i + 1`, resizes the draft buffer to `i + 1` entries, the first
`min (old length) (i + 1)` drafts staying as typed and the further ones being empty strings,
and sets the focus index to 0; the buffer is `i + 1` empty strings when every draft was
empty before. -/
theorem number_click_resizes_drafts (g : Game) (i x y : Int) (h0 : 0 ≤ i) (h4 : i ≤ 4)
    (hx : 50 ≤ x ∧ x ≤ 250) (hy : 50 + i * 60 ≤ y ∧ y ≤ 100 + i * 60) :
    ∃ g1, g.handleStartScreenEvent (.SDL_MOUSEBUTTONDOWN x y) = some g1 ∧
      g1.numPlayers = i + 1 ∧
      g1.playerInputs = g.playerInputs.take (i + 1).toNat ++
        List.replicate ((i + 1).toNat - g.playerInputs.length) [] ∧
      (g1.playerInputs.length : Int) = i + 1 ∧
      g1.currentInput = 0 ∧
      ((∀ s ∈ g.playerInputs, s = []) → g1.playerInputs = List.replicate (i + 1).toNat []) := by
  have hnostart : ¬ (x ≥ 350 ∧ x ≤ 450 ∧ y ≥ 500 ∧ y ≤ 550) := by omega
  refine ⟨{ g with
      numPlayers := i + 1
      playerInputs := vecResize g.playerInputs (i + 1)
      currentInput := 0 }, ?_, rfl, rfl, vecResize_length g.playerInputs (i + 1) (by omega),
    rfl, ?_⟩
  · show g.handleMouseButtonDown x y = _
    unfold Game.handleMouseButtonDown
    simp only [if_neg hnostart, numberButtons_of_hit x y i h0 h4 hx hy]
  intro hall
  show vecResize g.playerInputs (i + 1) = _
  rw [List.eq_replicate_iff]
  refine ⟨?_, ?_⟩
  · have := vecResize_length g.playerInputs (i + 1) (by omega)
    omega
  · intro s hs
    simp only [vecResize, List.mem_append] at hs
    rcases hs with hs | hs
    · exact hall s (List.mem_of_mem_take hs)
    · exact (List.mem_replicate.mp hs).2

/-- C4, amended, at the state in which "A" was typed for one player and the button for two
players is clicked. -/
theorem number_click_resizes_drafts_witness :
    ∃ g1, ({ sampleStart with numPlayers := 1, playerInputs := ["A".toList] } :
        Game).handleStartScreenEvent (.SDL_MOUSEBUTTONDOWN 100 120) = some g1 ∧
      g1.numPlayers = 2 ∧ g1.playerInputs = ["A".toList, []] ∧ g1.currentInput = 0 :=
  have h := number_click_resizes_drafts
    { sampleStart with numPlayers := 1, playerInputs := ["A".toList] } 1 100 120
    (by decide) (by decide) (by decide) (by decide)
  ⟨h.choose, h.choose_spec.1, h.choose_spec.2.1, h.choose_spec.2.2.1, h.choose_spec.2.2.2.2.1⟩

theorem validateLoop_records (inputs : List CppString) :
    ∀ (todo : Nat) (i : Int) (players ps : List Player),
      validateLoop inputs todo i players = some (true, ps) →
      ps = players ++ (List.range todo).map
        (fun (k : Nat) =>
          ({ name := (vecGet? inputs (i + (k : Int))).getD [],
             cockroachIndex := i + (k : Int) } : Player)) := by
  intro todo
  induction todo with
  | zero =>
    intro i players ps h
    simp only [validateLoop, Option.some.injEq, Prod.mk.injEq, true_and] at h
    simp [h]
  | succ todo ih =>
    intro i players ps h
    simp only [validateLoop] at h
    split at h
    · exact absurd h (by simp)
    · rename_i s hs
      split at h
      · simp at h
      · rw [ih (i + 1) _ ps h, List.range_succ_eq_map, List.map_cons, List.map_map,
          List.append_assoc]
        simp only [List.singleton_append, Nat.cast_zero, add_zero, hs, Option.getD_some]
        congr 2
        apply List.map_congr_left
        intro k _
        simp only [Function.comp, Nat.cast_succ]
        have : i + 1 + (k : Int) = i + ((k : Int) + 1) := by ring
        rw [this]

/-- The behaviour C2 describes, where the code has it: when the registry is empty before a
start click that succeeds, the registry afterwards holds one record per declared slot, in
slot order, with that slot's draft name and index. -/
theorem start_click_records_from_empty (g g1 : Game) (hsetup : g.gameStarted = false)
    (hempty : g.players = []) (x y : Int) (hx : 350 ≤ x ∧ x ≤ 450) (hy : 500 ≤ y ∧ y ≤ 550)
    (hstep : g.handleStartScreenEvent (.SDL_MOUSEBUTTONDOWN x y) = some g1)
    (hok : g1.gameStarted = true) :
    g1.players = (List.range g.numPlayers.toNat).map
      (fun (k : Nat) =>
        ({ name := (vecGet? g.playerInputs (k : Int)).getD [],
           cockroachIndex := (k : Int) } : Player)) := by
  have hbtn : x ≥ 350 ∧ x ≤ 450 ∧ y ≥ 500 ∧ y ≤ 550 := by omega
  have hstep2 : g.handleMouseButtonDown x y = some g1 := hstep
  unfold Game.handleMouseButtonDown at hstep2
  simp only [if_pos hbtn, numberButtons_of_miss x y _ (by omega : 250 < x)] at hstep2
  by_cases hnp : g.numPlayers > 0
  · simp only [if_pos hnp, Game.validatePlayerInputs] at hstep2
    cases hloop : validateLoop g.playerInputs g.numPlayers.toNat 0 g.players with
    | none => simp [hloop] at hstep2
    | some r =>
      obtain ⟨ok, ps⟩ := r
      simp only [hloop, Option.some.injEq] at hstep2
      cases ok with
      | false =>
        simp only [Bool.false_eq_true, if_false] at hstep2
        rw [← hstep2] at hok
        exact absurd (hsetup ▸ hok) (by simp)
      | true =>
        simp only [if_true] at hstep2
        rw [← hstep2]
        show ps = _
        rw [validateLoop_records _ _ _ _ _ hloop, hempty]
        simp
  · simp only [if_neg hnp, Option.some.injEq] at hstep2
    rw [← hstep2] at hok
    exact absurd (hsetup ▸ hok) (by simp)

/-- C2 fails on the code: with three players, a start click on the drafts "Alice", "", "Bob"
fails but has already recorded Alice; after "Carol" is typed the second start click succeeds
and the registry holds four records, Alice twice. -/
theorem failed_start_leaves_player_record :
    (sampleStart.handleStartScreenEvents
        [clickNumber 2, typeText "Alice", pressReturn, pressReturn, typeText "Bob", clickStart,
          pressReturn, pressReturn, typeText "Carol", clickStart]).map
        (fun g => (g.gameStarted, g.playerInputs, g.players)) =
      some (true, ["Alice".toList, "Carol".toList, "Bob".toList],
        [{ name := "Alice".toList, cockroachIndex := 0 },
         { name := "Alice".toList, cockroachIndex := 0 },
         { name := "Carol".toList, cockroachIndex := 1 },
         { name := "Bob".toList, cockroachIndex := 2 }]) := by
  decide

end CockroachRace
